import Mathlib

/-!
Verification of the `qparams` library (Go): a shallow embedding of its data
model, configuration resolution, validation engine, middleware dispatch and
retrieval operation, together with theorems settling the specification claims.

Go `string`-backed enum types (`LogicalOperator`, `RelationalOperator`,
`OrderDirection`) are embedded as `String`; Go `map[T]struct{}` sets are
embedded as `Finset String`; Go `*int` is embedded as `Option Int`;
Go `error` results are embedded as `Option String` carrying the exact
message the Go code formats (`none` = nil error).
-/

namespace QParams

/-- `LogicalOperator` from filter.go: a string-backed type. -/
abbrev LogicalOperator := String

/-- `RelationalOperator` from relational_operator.go: a string-backed type. -/
abbrev RelationalOperator := String

/-- `OrderDirection` from order.go (src/unnamed/part_003): a string-backed type. -/
abbrev OrderDirection := String

/-- `LogicalOperator.Symbol` (filter.go): `case OrOperator: return "or"; default: return "and"`. -/
def LogicalOperator.Symbol (o : LogicalOperator) : String :=
  if o = "or" then "or" else "and"

/-- `RelationalOperator.Symbol` (relational_operator.go): the switch mapping each
registered operator to its SQL symbol, defaulting to `=`. The Go switch has no
case for `EqualsOperator` ("eq"); it reaches the default branch. -/
def RelationalOperator.Symbol (o : RelationalOperator) : String :=
  if o = "ne" then "<>"
  else if o = "gt" then ">"
  else if o = "gte" then ">="
  else if o = "lt" then "<"
  else if o = "lte" then "<="
  else if o = "like" then "like"
  else if o = "ilike" then "ilike"
  else if o = "in" then "in"
  else "="

/-- `OrderDirection.Symbol` (src/unnamed/part_003): `case OrderDesc: return "desc"; default: return "asc"`. -/
def OrderDirection.Symbol (d : OrderDirection) : String :=
  if d = "desc" then "desc" else "asc"

/-- The package-level `logicalOperators` registry (filter.go). -/
def logicalOperators : Finset String := {"and", "or"}

/-- The package-level `relationalOperators` registry (relational_operator.go). -/
def relationalOperators : Finset String :=
  {"eq", "ne", "gt", "gte", "lt", "lte", "like", "ilike", "in"}

/-- `Filter` (filter.go): a single field/operator/value condition. -/
structure Filter where
  field : String
  op : RelationalOperator
  value : String
deriving Repr, DecidableEq

/-- `FilterGroup` (filter.go): a logical operator combining a list of filters
and a list of nested groups, forming a finite tree. -/
inductive FilterGroup where
  | mk (op : LogicalOperator) (filters : List Filter) (groups : List FilterGroup)
deriving Repr

/-- The `Op` field of a `FilterGroup`. -/
def FilterGroup.op : FilterGroup → LogicalOperator
  | .mk op _ _ => op

/-- The `Filters` field of a `FilterGroup`. -/
def FilterGroup.filters : FilterGroup → List Filter
  | .mk _ filters _ => filters

/-- The `Groups` field of a `FilterGroup`. -/
def FilterGroup.groups : FilterGroup → List FilterGroup
  | .mk _ _ groups => groups

/-- `OrderClause` (src/unnamed/part_003): one sort key, a field and a direction. -/
structure OrderClause where
  field : String
  direction : OrderDirection
deriving Repr, DecidableEq

/-- `SearchRequest` (search_request.go). `Groups` is a nullable pointer in Go,
hence `Option FilterGroup`; `Limit` and `Offset` are `*int`, hence `Option Int`. -/
structure SearchRequest where
  groups : Option FilterGroup
  orderBy : List OrderClause
  limit : Option Int
  offset : Option Int
deriving Repr

/-- `Options` (qparams.go): the resolved per-handler configuration. The Go
struct also carries an `errorHandler` function; the middleware embedding below
reports error-handler invocations as an outcome instead, so the function value
itself is not part of the state. -/
structure Options where
  queryParam : String
  isSearchMandatory : Bool
  allowedLogicalOperators : Finset String
  allowedRelationalOperators : Finset String
  limit : Option Int
  allowedFilterFields : Finset String
  allowedOrderFields : Finset String

/-- Contents of a Go `map[string]struct{}` after `clear(m)` followed by
`for _, v := range values { m[v] = struct{}{} }` — the body shared by the
replace-style setters (`WithFilterFields`, `WithOrderFields`,
`WithLogicalOperators`, `WithRelationalOperators`). -/
def replaceSet (values : List String) : Finset String :=
  values.foldl (fun acc v => insert v acc) ∅

/-- Contents of a Go `map[string]struct{}` after
`for _, v := range values { m[v] = struct{}{} }` with no prior `clear` — the
body shared by `WithExtraFilterFields` and `WithExtraOrderFields`. -/
def extendSet (s : Finset String) (values : List String) : Finset String :=
  values.foldl (fun acc v => insert v acc) s

/-- The functional options of qparams.go. Go calls this type `Option`; that
name collides with the Lean `Option` type, so the embedding calls it `ConfigOption`.
Each constructor carries the arguments of the corresponding `With...` function.
`withErrorHandler` is omitted: it stores a function value that the claims never
inspect. -/
inductive ConfigOption where
  | withQueryParam (value : String)
  | withSearchMandatory (value : Bool)
  | withLogicalOperators (values : List String)
  | withRelationalOperators (values : List String)
  | withLimit (value : Int)
  | withFilterFields (fields : List String)
  | withExtraFilterFields (fields : List String)
  | withOrderFields (fields : List String)
  | withExtraOrderFields (fields : List String)
deriving Repr, DecidableEq

/-- Effect of one `Option` closure on the `Options` struct it is applied to
(qparams.go lines 156-253). The replace-style setters clear the target map and
install the given values; the extend-style setters only insert. `WithLimit`
rebinds the `limit` pointer: `nil` for a negative argument, a fresh pointer
otherwise. -/
def applyOption (o : Options) : ConfigOption → Options
  | .withQueryParam v => { o with queryParam := v }
  | .withSearchMandatory v => { o with isSearchMandatory := v }
  | .withLogicalOperators vs => { o with allowedLogicalOperators := replaceSet vs }
  | .withRelationalOperators vs => { o with allowedRelationalOperators := replaceSet vs }
  | .withLimit v => { o with limit := if v < 0 then none else some v }
  | .withFilterFields fs => { o with allowedFilterFields := replaceSet fs }
  | .withExtraFilterFields fs => { o with allowedFilterFields := extendSet o.allowedFilterFields fs }
  | .withOrderFields fs => { o with allowedOrderFields := replaceSet fs }
  | .withExtraOrderFields fs => { o with allowedOrderFields := extendSet o.allowedOrderFields fs }

/-- `for _, opt := range opts { opt(options) }` (qparams.go lines 271-273). -/
def applyOptions (o : Options) (opts : List ConfigOption) : Options :=
  opts.foldl applyOption o

/-- The process-wide default configuration: the package-level `default...`
variables of qparams.go, taken at whatever state they currently hold. -/
structure Defaults where
  queryParam : String
  searchMandatory : Bool
  logicalOperators : Finset String
  relationalOperators : Finset String
  limit : Option Int
  filterFields : Finset String
  orderFields : Finset String

/-- The `Options` literal built at the start of `NewSearchHandler`
(qparams.go lines 260-269): every field is initialised from the corresponding
package-level default variable. For the four map-typed fields this is a Go map
assignment, which copies the reference, not the contents. -/
def initialOptions (d : Defaults) : Options :=
  { queryParam := d.queryParam
    isSearchMandatory := d.searchMandatory
    allowedLogicalOperators := d.logicalOperators
    allowedRelationalOperators := d.relationalOperators
    limit := d.limit
    allowedFilterFields := d.filterFields
    allowedOrderFields := d.orderFields }

/-- The per-handler configuration `NewSearchHandler(opts...)` resolves:
the defaults, then each option applied in order. -/
def newSearchHandlerOptions (d : Defaults) (opts : List ConfigOption) : Options :=
  applyOptions (initialOptions d) opts

/-- Contents of the process-wide default sets after `NewSearchHandler(opts...)`
returns. In the Go source the `Options` struct receives the very map objects
the `default...` variables point to (qparams.go lines 263-268: for example
`allowedFilterFields: defaultFilterFields`), and every option mutates those
maps in place via `clear` and keyed assignment without ever rebinding the
struct field (lines 172-253). The default variables therefore observe exactly
the final contents of the handler sets. The scalar fields (`queryParam`,
`isSearchMandatory`) are copied by value and `WithLimit` rebinds the `limit`
pointer rather than writing through it, so those defaults are unaffected. -/
def defaultsAfterNewSearchHandler (d : Defaults) (opts : List ConfigOption) : Defaults :=
  let o := newSearchHandlerOptions d opts
  { d with
    logicalOperators := o.allowedLogicalOperators
    relationalOperators := o.allowedRelationalOperators
    filterFields := o.allowedFilterFields
    orderFields := o.allowedOrderFields }

/-- The Go condition `p != nil && *p < 0` on an optional integer, shared by the
limit and offset checks of `validateSearchRequest`. -/
def isNegative : Option Int → Bool
  | some l => l < 0
  | none => false

/-- The limit checks of `validateSearchRequest` (qparams.go lines 310-322):
a present negative limit, then — when a ceiling is configured — a missing
limit, then a limit above the ceiling. -/
def validateLimit (s : SearchRequest) (opts : Options) : Option String :=
  if isNegative s.limit then
    some "limit must be null or >= 0"
  else
    match opts.limit with
    | none => none
    | some maxLimit =>
      match s.limit with
      | none => some "limit is mandatory"
      | some l =>
        if l > maxLimit then some ("limit must be between 0 and " ++ toString maxLimit)
        else none

/-- The offset check of `validateSearchRequest` (qparams.go lines 324-327). -/
def validateOffset (s : SearchRequest) : Option String :=
  if isNegative s.offset then
    some "offset must be null or >= 0"
  else none

/-- The order-by loop of `validateSearchRequest` (qparams.go lines 329-333):
the field of each clause must be an allowed order field; the first violation is
returned. -/
def validateOrderBy (opts : Options) : List OrderClause → Option String
  | [] => none
  | o :: os =>
    if o.field ∉ opts.allowedOrderFields then
      some ("field \"" ++ o.field ++ "\" not allowed in order by")
    else validateOrderBy opts os

/-- The filter loop inside `validateGroup` (qparams.go lines 345-353): for each
filter in order, the field must be allowed, then the operator must be allowed,
with the first violation returned. -/
def validateFilters (opts : Options) : List Filter → Option String
  | [] => none
  | f :: fs =>
    if f.field ∉ opts.allowedFilterFields then
      some ("field \"" ++ f.field ++ "\" not allowed in filters")
    else if f.op ∉ opts.allowedRelationalOperators then
      some ("relational operator \"" ++ f.op ++ "\" not allowed for field \"" ++ f.field ++ "\"")
    else validateFilters opts fs

mutual

/-- Body of the recursive closure `validateGroup` (qparams.go lines 336-362)
on a non-nil group: check the logical operator of the group, then its filters in
order, then recurse into the nested groups in order. -/
def validateGroup (opts : Options) : FilterGroup → Option String
  | .mk op filters groups =>
    if op ∉ opts.allowedLogicalOperators then
      some ("logical operator \"" ++ op ++ "\" not allowed")
    else
      match validateFilters opts filters with
      | some e => some e
      | none => validateGroups opts groups

/-- The `for _, sg := range g.Groups` loop of `validateGroup` (qparams.go
lines 355-359): validate each nested group in order, returning the first
error. -/
def validateGroups (opts : Options) : List FilterGroup → Option String
  | [] => none
  | g :: gs =>
    match validateGroup opts g with
    | some e => some e
    | none => validateGroups opts gs

end

/-- `validateGroup` applied to the nullable root pointer `s.Groups`
(qparams.go lines 337-339 and 364): a nil root group is valid. -/
def validateGroupRoot (opts : Options) : Option FilterGroup → Option String
  | none => none
  | some g => validateGroup opts g

/-- `validateSearchRequest` (qparams.go lines 309-369): the limit checks, then
the offset check, then the order-by loop, then the filter tree, each early
return mirrored by propagating the first `some` error. -/
def validateSearchRequest (s : SearchRequest) (opts : Options) : Option String :=
  match validateLimit s opts with
  | some e => some e
  | none =>
    match validateOffset s with
    | some e => some e
    | none =>
      match validateOrderBy opts s.orderBy with
      | some e => some e
      | none => validateGroupRoot opts s.groups

/-- Outcome of one run of the handler `NewSearchHandler` builds (qparams.go
lines 275-305): pass the request through untouched, invoke the error handler
with a message, or invoke the downstream handler with the validated
`SearchRequest` attached to the context. -/
inductive HandlerOutcome where
  | passThrough
  | handlerError (msg : String)
  | downstream (s : SearchRequest)
deriving Repr

/-- The handler body of qparams.go lines 276-305. `query` is the raw value of
the configured parameter in the URL, `none` when the parameter is absent;
`r.URL.Query().Get` collapses an absent parameter to `""`. JSON decoding
(`encoding/json`, external to this repository) is abstracted as the `decode`
argument, returning either an error message or a decoded `SearchRequest`. -/
def searchHandlerServe (opts : Options)
    (decode : String → Except String SearchRequest)
    (query : Option String) : HandlerOutcome :=
  let s := query.getD ""
  if s = "" then
    if !opts.isSearchMandatory then
      .passThrough
    else
      .handlerError ("missing \"" ++ opts.queryParam ++ "\" query parameter")
  else
    match decode s with
    | .error e => .handlerError e
    | .ok search =>
      match validateSearchRequest search opts with
      | some e => .handlerError e
      | none => .downstream search

/-- A value stored in a request context under some key: either a
`*SearchRequest` or a value of any other dynamic type. -/
inductive ContextValue where
  | searchRequestVal (s : SearchRequest)
  | otherVal (tag : String)
deriving Repr

/-- `GetSearchRequest` (qparams.go lines 374-386): look up the reserved context
key; return nil when nothing is stored, nil when the stored value fails the
`*SearchRequest` type assertion, and the stored request otherwise. -/
def GetSearchRequest (ctxVal : Option ContextValue) : Option SearchRequest :=
  match ctxVal with
  | none => none
  | some v =>
    match v with
    | .searchRequestVal s => some s
    | .otherVal _ => none

/-!
Specification-side formulation. The specification describes validation as an
ordered sequence of checks with fail-fast semantics: success, or the first
violation encountered. The definitions below build that ordered sequence of
check outcomes (`none` = check passed, `some msg` = the violation the check
would report) following the wording of the spec — limit, offset, order
clauses in the order supplied, then the filter tree in depth-first pre-order:
for each group first its logical operator, then its filters in listed order
(field before operator), then its nested groups in listed order. The
refinement theorems compare the source functions against the first violation
of these lists.
-/

/-- The first violation in an ordered sequence of check outcomes. -/
def firstSome : List (Option String) → Option String
  | [] => none
  | c :: cs =>
    match c with
    | some e => some e
    | none => firstSome cs

/-- The two checks the spec prescribes for one filter, in order: field
allowed, then relational operator allowed (message naming operator and
field). -/
def filterCheckList (opts : Options) (f : Filter) : List (Option String) :=
  [ if f.field ∈ opts.allowedFilterFields then none
    else some ("field \"" ++ f.field ++ "\" not allowed in filters"),
    if f.op ∈ opts.allowedRelationalOperators then none
    else some ("relational operator \"" ++ f.op ++ "\" not allowed for field \"" ++ f.field ++ "\"") ]

mutual

/-- Depth-first pre-order check sequence of one filter group: its logical
operator first, then the checks of its filters in listed order, then the
check sequences of its nested groups in listed order. -/
def groupCheckList (opts : Options) : FilterGroup → List (Option String)
  | .mk op filters groups =>
    (if op ∈ opts.allowedLogicalOperators then none
     else some ("logical operator \"" ++ op ++ "\" not allowed"))
    :: (filters.flatMap (filterCheckList opts) ++ groupsCheckList opts groups)

/-- Concatenated check sequences of a list of groups, in listed order. -/
def groupsCheckList (opts : Options) : List FilterGroup → List (Option String)
  | [] => []
  | g :: gs => groupCheckList opts g ++ groupsCheckList opts gs

end

/-- Check sequence of the optional root group: absence of a root group
contributes no checks (it is valid — no filters). -/
def rootCheckList (opts : Options) : Option FilterGroup → List (Option String)
  | none => []
  | some g => groupCheckList opts g

/-- The three pagination-limit checks the spec prescribes, in order: negative
limit, limit omitted while a ceiling is configured, limit above the configured
ceiling. -/
def limitCheckList (s : SearchRequest) (opts : Options) : List (Option String) :=
  [ if isNegative s.limit then some "limit must be null or >= 0" else none,
    match opts.limit, s.limit with
    | some _, none => some "limit is mandatory"
    | _, _ => none,
    match opts.limit, s.limit with
    | some m, some l =>
      if l > m then some ("limit must be between 0 and " ++ toString m) else none
    | _, _ => none ]

/-- The full ordered check sequence of a search request per the spec: limit
checks, then offset, then the order clauses in the order supplied, then the
filter tree in depth-first pre-order. -/
def requestCheckList (s : SearchRequest) (opts : Options) : List (Option String) :=
  limitCheckList s opts
    ++ [if isNegative s.offset then some "offset must be null or >= 0" else none]
    ++ s.orderBy.map (fun o =>
        if o.field ∈ opts.allowedOrderFields then none
        else some ("field \"" ++ o.field ++ "\" not allowed in order by"))
    ++ rootCheckList opts s.groups

/-- A concrete process-wide default state: the package-level variables as
initialised in qparams.go, after `SetDefaultFilterFields("id")` and
`SetDefaultOrderFields("id")`. -/
def exampleDefaults : Defaults :=
  { queryParam := "q"
    searchMandatory := true
    logicalOperators := logicalOperators
    relationalOperators := relationalOperators
    limit := none
    filterFields := {"id"}
    orderFields := {"id"}
    }

/-- A concrete configuration allowing only the logical operator `and`. -/
def nestedOpts : Options :=
  { queryParam := "q"
    isSearchMandatory := true
    allowedLogicalOperators := {"and"}
    allowedRelationalOperators := relationalOperators
    limit := none
    allowedFilterFields := ∅
    allowedOrderFields := ∅ }

/-- An outer group with an allowed operator whose nested inner group uses the
disallowed operator `or`. -/
def nestedGroup : FilterGroup :=
  .mk "and" [] [.mk "or" [] []]

/-- A concrete configuration with maximum limit 10 and no allowed fields. -/
def witnessOpts : Options :=
  { queryParam := "q"
    isSearchMandatory := true
    allowedLogicalOperators := logicalOperators
    allowedRelationalOperators := relationalOperators
    limit := some 10
    allowedFilterFields := ∅
    allowedOrderFields := ∅ }

/-- `witnessOpts` without a configured maximum limit. -/
def witnessOptsNoLimit : Options :=
  { witnessOpts with limit := none }

/-!
Helper lemmas relating the source functions to the spec-side check lists.
-/

/-- Splitting `firstSome` over a concatenation: the first violation of the
combined sequence is the first violation of the left part, else that of the
right part. -/
theorem firstSome_append (l1 l2 : List (Option String)) :
    firstSome (l1 ++ l2) =
      match firstSome l1 with
      | some e => some e
      | none => firstSome l2 := by
  induction l1 with
  | nil => rfl
  | cons c cs ih =>
    cases c with
    | some e => rfl
    | none => simpa [firstSome] using ih

/-- `firstSome` skips a passed check. -/
theorem firstSome_cons_none (l : List (Option String)) :
    firstSome (none :: l) = firstSome l := rfl

/-- `firstSome` stops at a violated check. -/
theorem firstSome_cons_some (e : String) (l : List (Option String)) :
    firstSome (some e :: l) = some e := rfl

/-- The filter loop of the source returns the first violation of the
flattened field/operator check sequence of its filters. -/
theorem validateFilters_eq (opts : Options) : (fs : List Filter) →
    validateFilters opts fs = firstSome (fs.flatMap (filterCheckList opts))
  | [] => rfl
  | f :: fs => by
    have ih := validateFilters_eq opts fs
    by_cases h1 : f.field ∈ opts.allowedFilterFields
    · by_cases h2 : f.op ∈ opts.allowedRelationalOperators
      · simpa [validateFilters, filterCheckList, h1, h2, firstSome_cons_none] using ih
      · simp [validateFilters, filterCheckList, h1, h2,
          firstSome_cons_none, firstSome_cons_some]
    · simp [validateFilters, filterCheckList, h1,
        firstSome_cons_none, firstSome_cons_some]

mutual

/-- The recursive group validation of the source returns the first violation
of the depth-first pre-order check sequence of the group. -/
theorem validateGroup_eq (opts : Options) : (g : FilterGroup) →
    validateGroup opts g = firstSome (groupCheckList opts g)
  | .mk op filters groups => by
    have hf := validateFilters_eq opts filters
    have hg := validateGroups_eq opts groups
    by_cases hop : op ∈ opts.allowedLogicalOperators
    · have hlist : firstSome (groupCheckList opts (.mk op filters groups))
          = firstSome (filters.flatMap (filterCheckList opts) ++ groupsCheckList opts groups) := by
        simp [groupCheckList, hop, firstSome_cons_none]
      rw [hlist, firstSome_append, ← hf, ← hg]
      simp only [validateGroup, hop, not_true_eq_false, if_false, ite_false]
    · simp [validateGroup, groupCheckList, hop, firstSome_cons_some]

/-- The nested-group loop of the source returns the first violation of the
concatenated check sequences of the groups, in listed order. -/
theorem validateGroups_eq (opts : Options) : (gs : List FilterGroup) →
    validateGroups opts gs = firstSome (groupsCheckList opts gs)
  | [] => rfl
  | g :: gs => by
    have h1 := validateGroup_eq opts g
    have h2 := validateGroups_eq opts gs
    have hlist : firstSome (groupsCheckList opts (g :: gs))
        = match firstSome (groupCheckList opts g) with
          | some e => some e
          | none => firstSome (groupsCheckList opts gs) := by
      rw [groupsCheckList, firstSome_append]
    rw [hlist, ← h1, ← h2, validateGroups]

end

/-- The order-by loop of the source returns the first violation of the
order-field check sequence, in the order supplied. -/
theorem validateOrderBy_eq (opts : Options) : (os : List OrderClause) →
    validateOrderBy opts os =
      firstSome (os.map fun o =>
        if o.field ∈ opts.allowedOrderFields then none
        else some ("field \"" ++ o.field ++ "\" not allowed in order by"))
  | [] => rfl
  | o :: os => by
    by_cases h : o.field ∈ opts.allowedOrderFields
    · simp [validateOrderBy, h, firstSome, validateOrderBy_eq opts os]
    · simp [validateOrderBy, h, firstSome]

/-- The limit checks of the source return the first violation of the
three-element limit check sequence. -/
theorem validateLimit_eq (s : SearchRequest) (opts : Options) :
    validateLimit s opts = firstSome (limitCheckList s opts) := by
  unfold validateLimit limitCheckList
  cases hs : s.limit with
  | none => cases ho : opts.limit <;> simp [firstSome, isNegative]
  | some l =>
    cases ho : opts.limit with
    | none => by_cases hl : l < 0 <;> simp [firstSome, isNegative, hl]
    | some m =>
      by_cases hl : l < 0
      · simp [firstSome, isNegative, hl]
      · by_cases hm : l > m <;> simp [firstSome, isNegative, hl, hm]

/-- The offset check of the source as a single-element check sequence. -/
theorem validateOffset_eq (s : SearchRequest) :
    validateOffset s =
      firstSome [if isNegative s.offset then some "offset must be null or >= 0" else none] := by
  unfold validateOffset
  by_cases h : isNegative s.offset <;> simp [firstSome, h]

/-- Root-group validation returns the first violation of the root check
sequence; an absent root group contributes none. -/
theorem validateGroupRoot_eq (opts : Options) (g : Option FilterGroup) :
    validateGroupRoot opts g = firstSome (rootCheckList opts g) := by
  cases g with
  | none => rfl
  | some g => exact validateGroup_eq opts g

/-- Inserting each element of a list into a finite set yields the union of the
set with the elements of the list. -/
theorem foldl_insert_eq : (vs : List String) → (s : Finset String) →
    vs.foldl (fun acc v => insert v acc) s = s ∪ vs.toFinset
  | [], s => by simp
  | v :: vs, s => by
    rw [List.foldl_cons, foldl_insert_eq vs (insert v s), List.toFinset_cons,
      Finset.insert_union, Finset.union_insert]

/-- A replace-style setter leaves exactly the elements of its argument list,
whatever the set held before. -/
theorem replaceSet_eq (vs : List String) : replaceSet vs = vs.toFinset := by
  rw [replaceSet, foldl_insert_eq, Finset.empty_union]

/-- An extend-style setter unions its argument list into the current set. -/
theorem extendSet_eq (s : Finset String) (vs : List String) :
    extendSet s vs = s ∪ vs.toFinset :=
  foldl_insert_eq vs s

/-!
Claim theorems.
-/

/-- C1: the claim states that `NewSearchHandler(opts...)` operates on a clone
of the process-wide defaults, leaving the default configuration sets
unchanged. The code violates this: the `Options` literal in `NewSearchHandler`
copies the default map references, not their contents, so a replace-style
option rewrites the process-wide default set. Evaluated at defaults whose
filter-field set is exactly `id` and the single option
`WithFilterFields("name")`, the default filter-field set afterwards is
exactly `name`, no longer equal to its prior value. -/
theorem C1_options_mutate_defaults :
    (defaultsAfterNewSearchHandler exampleDefaults
        [ConfigOption.withFilterFields ["name"]]).filterFields = {"name"} ∧
    exampleDefaults.filterFields = {"id"} ∧
    (defaultsAfterNewSearchHandler exampleDefaults
        [ConfigOption.withFilterFields ["name"]]).filterFields
      ≠ exampleDefaults.filterFields := by
  refine ⟨by decide, rfl, by decide⟩

/-- C2: validation of the filter tree is depth-first pre-order from the root
group — for each group the logical operator is checked first, then each filter
in listed order (field, then relational operator, with the message naming both
operator and field), then each nested group in listed order — the first
violation anywhere is the result, a nil root group is valid, and a disallowed
operator in a nested inner group is detected even when the outer group is
valid. -/
theorem C2_filter_tree_preorder :
    (∀ (opts : Options) (g : Option FilterGroup),
        validateGroupRoot opts g = firstSome (rootCheckList opts g)) ∧
    (∀ opts : Options, validateGroupRoot opts none = none) ∧
    validateGroupRoot nestedOpts (some nestedGroup)
      = some "logical operator \"or\" not allowed" :=
  ⟨validateGroupRoot_eq, fun _ => rfl, by decide⟩

/-- C3: validation returns success or exactly the first violation in the
fixed order of checks — limit, then offset, then the order clauses in the
order supplied, then the filter tree — with no aggregation of errors. -/
theorem C3_validation_order_fail_fast (s : SearchRequest) (opts : Options) :
    validateSearchRequest s opts = firstSome (requestCheckList s opts) := by
  have hL := validateLimit_eq s opts
  have hO := validateOffset_eq s
  have hB := validateOrderBy_eq opts s.orderBy
  have hG := validateGroupRoot_eq opts s.groups
  rw [requestCheckList, firstSome_append, firstSome_append, firstSome_append,
    ← hL, ← hO, ← hB, ← hG, validateSearchRequest]
  cases validateLimit s opts with
  | some e => rfl
  | none =>
    cases validateOffset s with
    | some e => rfl
    | none =>
      cases validateOrderBy opts s.orderBy <;> rfl

/-- C5: configuration operations apply strictly in order — an extend after a
replace yields the union of the replacing values with the extension, while a
replace after an extend yields only the replacing values, discarding the
extension — both for filter fields and for order fields. -/
theorem C5_replace_extend_order (o : Options) (vs1 vs2 : List String) :
    ((applyOptions o [ConfigOption.withFilterFields vs1,
        ConfigOption.withExtraFilterFields vs2]).allowedFilterFields
      = vs1.toFinset ∪ vs2.toFinset) ∧
    ((applyOptions o [ConfigOption.withExtraFilterFields vs2,
        ConfigOption.withFilterFields vs1]).allowedFilterFields
      = vs1.toFinset) ∧
    ((applyOptions o [ConfigOption.withOrderFields vs1,
        ConfigOption.withExtraOrderFields vs2]).allowedOrderFields
      = vs1.toFinset ∪ vs2.toFinset) ∧
    ((applyOptions o [ConfigOption.withExtraOrderFields vs2,
        ConfigOption.withOrderFields vs1]).allowedOrderFields
      = vs1.toFinset) := by
  refine ⟨?_, ?_, ?_, ?_⟩ <;>
    simp [applyOptions, applyOption, List.foldl_cons, List.foldl_nil,
      replaceSet_eq, extendSet_eq]

/-- C4: pagination validation — a present negative limit yields the
invalid-limit error; a configured maximum with an omitted limit yields the
limit-mandatory error; a configured maximum with a larger limit yields the
invalid-limit error citing the configured maximum; a present negative offset
(once the limit checks pass) yields the invalid-offset error; and a request
with no limit and no offset, against a configuration with no ceiling, is
valid. -/
theorem C4_pagination_rules :
    (∀ (s : SearchRequest) (opts : Options) (l : Int),
        s.limit = some l → l < 0 →
        validateSearchRequest s opts = some "limit must be null or >= 0") ∧
    (∀ (s : SearchRequest) (opts : Options) (m : Int),
        opts.limit = some m → s.limit = none →
        validateSearchRequest s opts = some "limit is mandatory") ∧
    (∀ (s : SearchRequest) (opts : Options) (m l : Int),
        opts.limit = some m → s.limit = some l → 0 ≤ l → m < l →
        validateSearchRequest s opts
          = some ("limit must be between 0 and " ++ toString m)) ∧
    (∀ (s : SearchRequest) (opts : Options) (off : Int),
        validateLimit s opts = none → s.offset = some off → off < 0 →
        validateSearchRequest s opts = some "offset must be null or >= 0") ∧
    (∀ opts : Options, opts.limit = none →
        validateSearchRequest
          { groups := none, orderBy := [], limit := none, offset := none } opts
          = none) := by
  refine ⟨?_, ?_, ?_, ?_, ?_⟩
  · intro s opts l hs hl
    simp [validateSearchRequest, validateLimit, isNegative, hs, hl]
  · intro s opts m ho hs
    simp [validateSearchRequest, validateLimit, isNegative, ho, hs]
  · intro s opts m l ho hs h0 hm
    simp [validateSearchRequest, validateLimit, isNegative, ho, hs,
      show ¬l < 0 by omega, show l > m from hm]
  · intro s opts off hLim hs hoff
    simp [validateSearchRequest, hLim, validateOffset, isNegative, hs, hoff]
  · intro opts ho
    simp [validateSearchRequest, validateLimit, validateOffset, validateOrderBy,
      validateGroupRoot, isNegative, ho]

/-- Witness for C4: each pagination rule exercised at a concrete request
against the concrete configurations `witnessOpts` (maximum limit 10) and
`witnessOptsNoLimit` (no ceiling). -/
theorem C4_pagination_rules_witness :
    validateSearchRequest
        { groups := none, orderBy := [], limit := some (-5), offset := none }
        witnessOptsNoLimit = some "limit must be null or >= 0" ∧
    validateSearchRequest
        { groups := none, orderBy := [], limit := none, offset := none }
        witnessOpts = some "limit is mandatory" ∧
    validateSearchRequest
        { groups := none, orderBy := [], limit := some 1000, offset := none }
        witnessOpts = some "limit must be between 0 and 10" ∧
    validateSearchRequest
        { groups := none, orderBy := [], limit := none, offset := some (-5) }
        witnessOptsNoLimit = some "offset must be null or >= 0" ∧
    validateSearchRequest
        { groups := none, orderBy := [], limit := none, offset := none }
        witnessOptsNoLimit = none :=
  ⟨C4_pagination_rules.1 _ witnessOptsNoLimit (-5) rfl (by decide),
   C4_pagination_rules.2.1 _ witnessOpts 10 rfl rfl,
   C4_pagination_rules.2.2.1 _ witnessOpts 10 1000 rfl rfl (by decide) (by decide),
   C4_pagination_rules.2.2.2.1 _ witnessOptsNoLimit (-5) rfl rfl (by decide),
   C4_pagination_rules.2.2.2.2 witnessOptsNoLimit rfl⟩

/-- C6: when the configured query parameter is absent from the request, a
not-mandatory endpoint passes the request through to the downstream handler
with no search request attached, while a mandatory endpoint invokes the error
handler with the missing-parameter condition and never invokes downstream. -/
theorem C6_absent_param_dispatch (opts : Options)
    (decode : String → Except String SearchRequest) :
    searchHandlerServe opts decode none =
      (if opts.isSearchMandatory then
        HandlerOutcome.handlerError
          ("missing \"" ++ opts.queryParam ++ "\" query parameter")
      else HandlerOutcome.passThrough) := by
  cases h : opts.isSearchMandatory <;> simp [searchHandlerServe, h]

/-- C7: `GetSearchRequest` is total — it returns nil when nothing is stored
under the reserved context key, nil when the stored value is not a
`*SearchRequest`, and the attached request otherwise. -/
theorem C7_get_search_request_total :
    GetSearchRequest none = none ∧
    (∀ tag : String, GetSearchRequest (some (ContextValue.otherVal tag)) = none) ∧
    (∀ s : SearchRequest,
        GetSearchRequest (some (ContextValue.searchRequestVal s)) = some s) :=
  ⟨rfl, fun _ => rfl, fun _ => rfl⟩

/-- C8: symbol lookup is total with documented defaults — `and` for any
logical operator other than `or`, `=` for any relational operator outside the
nine registered ones, `asc` for any direction other than `desc`, and the
canonical symbol for each registered value. -/
theorem C8_symbol_defaults :
    ((∀ o : LogicalOperator, o ≠ "or" → LogicalOperator.Symbol o = "and") ∧
      LogicalOperator.Symbol "or" = "or") ∧
    ((∀ o : RelationalOperator,
        o ∉ ["eq", "ne", "gt", "gte", "lt", "lte", "like", "ilike", "in"] →
        RelationalOperator.Symbol o = "=") ∧
      (RelationalOperator.Symbol "eq" = "=" ∧
        RelationalOperator.Symbol "ne" = "<>" ∧
        RelationalOperator.Symbol "gt" = ">" ∧
        RelationalOperator.Symbol "gte" = ">=" ∧
        RelationalOperator.Symbol "lt" = "<" ∧
        RelationalOperator.Symbol "lte" = "<=" ∧
        RelationalOperator.Symbol "like" = "like" ∧
        RelationalOperator.Symbol "ilike" = "ilike" ∧
        RelationalOperator.Symbol "in" = "in")) ∧
    ((∀ d : OrderDirection, d ≠ "desc" → OrderDirection.Symbol d = "asc") ∧
      OrderDirection.Symbol "desc" = "desc") := by
  refine ⟨⟨?_, rfl⟩, ⟨?_, by decide⟩, ⟨?_, rfl⟩⟩
  · intro o ho
    simp [LogicalOperator.Symbol, ho]
  · intro o ho
    simp only [List.mem_cons, List.not_mem_nil, or_false, not_or] at ho
    obtain ⟨h1, h2, h3, h4, h5, h6, h7, h8, h9⟩ := ho
    simp [RelationalOperator.Symbol, h1, h2, h3, h4, h5, h6, h7, h8, h9]
  · intro d hd
    simp [OrderDirection.Symbol, hd]

/-- Witness for C8: the unregistered value `foo` maps to each documented
default symbol. -/
theorem C8_symbol_defaults_witness :
    LogicalOperator.Symbol "foo" = "and" ∧
    RelationalOperator.Symbol "foo" = "=" ∧
    OrderDirection.Symbol "foo" = "asc" :=
  ⟨C8_symbol_defaults.1.1 "foo" (by decide),
   C8_symbol_defaults.2.1.1 "foo" (by decide),
   C8_symbol_defaults.2.2.1 "foo" (by decide)⟩

/-- C9: a query parameter present with the empty-string value is
indistinguishable from an absent parameter — the middleware takes the
absent-parameter path, whichever decoder is in play (so the payload is never
decoded). -/
theorem C9_empty_param_is_absent (opts : Options)
    (d1 d2 : String → Except String SearchRequest) :
    searchHandlerServe opts d1 (some "") = searchHandlerServe opts d2 none :=
  rfl

/-- C10: validation never inspects the direction of an order clause —
replacing every direction by an arbitrary string leaves the result of
`validateSearchRequest` unchanged. -/
theorem C10_direction_never_inspected (s : SearchRequest) (opts : Options)
    (f : OrderClause → OrderDirection) :
    validateSearchRequest
        { s with orderBy := s.orderBy.map fun o => { o with direction := f o } }
        opts
      = validateSearchRequest s opts := by
  have hmap : ∀ os : List OrderClause,
      validateOrderBy opts (os.map fun o => { o with direction := f o })
        = validateOrderBy opts os := by
    intro os
    induction os with
    | nil => rfl
    | cons o os ih =>
      by_cases h : o.field ∈ opts.allowedOrderFields <;>
        simp [validateOrderBy, h, ih]
  unfold validateSearchRequest
  rw [show validateLimit
        { s with orderBy := s.orderBy.map fun o => { o with direction := f o } }
        opts = validateLimit s opts from rfl,
    show validateOffset
        { s with orderBy := s.orderBy.map fun o => { o with direction := f o } }
        = validateOffset s from rfl]
  rw [show ({ s with orderBy := s.orderBy.map fun o => { o with direction := f o } }
        : SearchRequest).orderBy
      = s.orderBy.map (fun o => { o with direction := f o }) from rfl]
  rw [show ({ s with orderBy := s.orderBy.map fun o => { o with direction := f o } }
        : SearchRequest).groups = s.groups from rfl]
  rw [hmap]

end QParams
